import Mathlib

/-!
Verification model of the jimiiothub-dvr-upload service.

The Go sources under `src/` are shallowly embedded: strings are lists of
characters (`Str`), the on-disk staging area is an association list from
path to file size (`FS`), and the external collaborators (ffmpeg, the S3
client, RabbitMQ) are modelled by an environment record whose boolean
fields fix the outcome of each call.  The functions below are direct
translations of the corresponding Go functions, keeping their names.
-/

namespace DvrUpload

/-- Go strings are modelled as lists of characters. -/
abbrev Str := List Char

/-- `startsWith s pre` is Go `strings.HasPrefix(s, pre)`. -/
def startsWith : Str → Str → Bool
  | _, [] => true
  | [], _ :: _ => false
  | a :: s, b :: t => a = b && startsWith s t

/-- `strContains s sub` is Go `strings.Contains(s, sub)`. -/
def strContains : Str → Str → Bool
  | [], sub => sub.isEmpty
  | a :: t, sub => startsWith (a :: t) sub || strContains t sub

/-- `hasSuffix s suf` is Go `strings.HasSuffix(s, suf)`. -/
def hasSuffix (s suf : Str) : Bool :=
  startsWith s.reverse suf.reverse

/-- `trimSuffix s suf` is Go `strings.TrimSuffix(s, suf)`. -/
def trimSuffix (s suf : Str) : Str :=
  if hasSuffix s suf then s.take (s.length - suf.length) else s

/-- Index of the last occurrence of character `c`, Go `strings.LastIndex`
restricted to a one-character needle (the only way the code uses it). -/
def lastIndexC : Str → Char → Option Nat
  | [], _ => none
  | a :: t, c =>
    match lastIndexC t c with
    | some i => some (i + 1)
    | none => if a = c then some 0 else none

/-- The part of a path after the last `/` (the whole path if none). -/
def afterLastSlash (p : Str) : Str :=
  match lastIndexC p '/' with
  | some i => p.drop (i + 1)
  | none => p

/-- Go `filepath.Ext`: the suffix of the last path element starting at its
last dot, or empty if the last element has no dot. -/
def extOf (p : Str) : Str :=
  let el := afterLastSlash p
  match lastIndexC el '.' with
  | some i => el.drop i
  | none => []

/-- Go `filepath.Base` (without `Clean`-style dot handling, which the
call sites never exercise): strip trailing slashes, then keep the part
after the last slash; empty input gives `"."`, all-slash input gives
`"/"`. -/
def baseName (p : Str) : Str :=
  if p = [] then ['.']
  else
    let q := (p.reverse.dropWhile (fun c => c = '/')).reverse
    if q = [] then ['/'] else afterLastSlash q

/-- Go `filepath.Dir` without the final `Clean` (irrelevant to the
properties proved here): everything before the last slash. -/
def dirOf (p : Str) : Str :=
  match lastIndexC p '/' with
  | some 0 => ['/']
  | some i => p.take i
  | none => ['.']

/-- Go `filepath.Join` of two components (no cleaning). -/
def joinPath (a b : Str) : Str := a ++ '/' :: b

/-- ASCII lower-casing of a character (the Go code only ever lowercases
ASCII extensions and field values). -/
def charToLower (c : Char) : Char :=
  if 'A' ≤ c ∧ c ≤ 'Z' then Char.ofNat (c.toNat + 32) else c

/-- ASCII upper-casing of a character. -/
def charToUpper (c : Char) : Char :=
  if 'a' ≤ c ∧ c ≤ 'z' then Char.ofNat (c.toNat - 32) else c

/-- Go `strings.ToLower` on ASCII data. -/
def strToLower (s : Str) : Str := s.map charToLower

/-- Go `strings.ToUpper` on ASCII data. -/
def strToUpper (s : Str) : Str := s.map charToUpper

/-- ASCII whitespace as recognised by Go `strings.TrimSpace`. -/
def isSpaceChar (c : Char) : Bool :=
  c = ' ' || c = '\t' || c = '\n' || c = '\r' ||
  c = Char.ofNat 11 || c = Char.ofNat 12

/-- Go `strings.TrimSpace` on ASCII data. -/
def trimSpace (s : Str) : Str :=
  ((s.dropWhile isSpaceChar).reverse.dropWhile isSpaceChar).reverse

/-- Decimal digit test. -/
def isDigitChar (c : Char) : Bool := '0' ≤ c && c ≤ '9'

/-- Hexadecimal digit test (for the snapshot `raw` block). -/
def isHexChar (c : Char) : Bool :=
  isDigitChar c || ('a' ≤ c && c ≤ 'f') || ('A' ≤ c && c ≤ 'F')

/-- Numeric value of a decimal digit string (used where the regexes have
already guaranteed all-digit input). -/
def digitsToNat (s : Str) : Nat :=
  s.foldl (fun a c => a * 10 + (c.toNat - 48)) 0

/-!
## Filesystem model

The staging area is an association list from path to file size.  `fsStat`
is `os.Stat` (returning only the size, the sole field the code reads),
`fsRemove` is `os.Remove`, and `fsInsert` creates/overwrites a file.
-/

/-- On-disk state: one entry per existing file, path to byte size. -/
abbrev FS := List (Str × Nat)

/-- `os.Stat`: the size of the file at `p`, or `none` if it does not
exist. -/
def fsStat : FS → Str → Option Nat
  | [], _ => none
  | e :: t, p => if e.1 = p then some e.2 else fsStat t p

/-- `os.Remove` (ignoring its error as the Go code does). -/
def fsRemove : FS → Str → FS
  | [], _ => []
  | e :: t, p => if e.1 = p then fsRemove t p else e :: fsRemove t p

/-- Create or overwrite the file at `p` with `n` bytes. -/
def fsInsert (fs : FS) (p : Str) (n : Nat) : FS :=
  (p, n) :: fsRemove fs p

/-!
## Time model

Go's `time` package is modelled by UTC Unix seconds (`Int`) together with
the standard civil-calendar conversions; `time.Parse` range validation
(month 1–12, day fitting the month, clock fields in range) is reproduced.
-/

/-- Leap-year test of the proleptic Gregorian calendar. -/
def isLeapYear (y : Nat) : Bool :=
  (y % 4 = 0 && y % 100 ≠ 0) || y % 400 = 0

/-- Number of days of month `m` in year `y` (0 for an invalid month). -/
def daysInMonth (y m : Nat) : Nat :=
  match m with
  | 1 => 31
  | 2 => if isLeapYear y then 29 else 28
  | 3 => 31
  | 4 => 30
  | 5 => 31
  | 6 => 30
  | 7 => 31
  | 8 => 31
  | 9 => 30
  | 10 => 31
  | 11 => 30
  | 12 => 31
  | _ => 0

/-- Days since the Unix epoch of a civil date (standard era-based
conversion). -/
def daysFromCivil (y0 m d : Nat) : Int :=
  let y : Int := if m ≤ 2 then (y0 : Int) - 1 else (y0 : Int)
  let era := Int.fdiv y 400
  let yoe := y - era * 400
  let mp : Int := ((m : Int) + 9) % 12
  let doy := (153 * mp + 2) / 5 + (d : Int) - 1
  let doe := yoe * 365 + yoe / 4 - yoe / 100 + doy
  era * 146097 + doe - 719468

/-- Civil date (year, month, day) from days since the Unix epoch. -/
def civilFromDays (z0 : Int) : Int × Int × Int :=
  let z := z0 + 719468
  let era := Int.fdiv z 146097
  let doe := z - era * 146097
  let yoe := (doe - doe / 1460 + doe / 36524 - doe / 146096) / 365
  let y := yoe + era * 400
  let doy := doe - (365 * yoe + yoe / 4 - yoe / 100)
  let mp := (5 * doy + 2) / 153
  let d := doy - (153 * mp + 2) / 5 + 1
  let m := if mp < 10 then mp + 3 else mp - 9
  (if m ≤ 2 then y + 1 else y, m, d)

/-- UTC Unix seconds of a civil date-time. -/
def toUnixCivil (y mo d h mi s : Nat) : Int :=
  daysFromCivil y mo d * 86400 + ((h * 3600 + mi * 60 + s : Nat) : Int)

/-- Decimal rendering of a `Nat` (fuel-bounded; enough for any size or
year appearing here). -/
def natToStrAux : Nat → Nat → Str
  | 0, _ => []
  | _ + 1, 0 => []
  | fuel + 1, n => natToStrAux fuel (n / 10) ++ [Char.ofNat (48 + n % 10)]

/-- Decimal rendering of a `Nat`. -/
def natToStr (n : Nat) : Str :=
  if n = 0 then ['0'] else natToStrAux 24 n

/-- `utils.leftPad`: left-pad with zeros up to `width`. -/
def leftPad (s : Str) (width : Nat) : Str :=
  if width ≤ s.length then s else List.replicate (width - s.length) '0' ++ s

/-- Two-digit zero-padded field. -/
def pad2 (n : Nat) : Str := leftPad (natToStr n) 2

/-- Four-digit zero-padded field. -/
def pad4 (n : Nat) : Str := leftPad (natToStr n) 4

/-- Go `t.Format("2006_01_02_15_04_05")` in UTC for the event filename. -/
def formatTS (t : Int) : Str :=
  let days := Int.fdiv t 86400
  let sod := (Int.emod t 86400).toNat
  let c := civilFromDays days
  pad4 c.1.toNat ++ '_' :: pad2 c.2.1.toNat ++ '_' :: pad2 c.2.2.toNat ++
    '_' :: pad2 (sod / 3600) ++ '_' :: pad2 (sod % 3600 / 60) ++ '_' :: pad2 (sod % 60)

/-- Valid wall-clock fields as `time.Parse` accepts them. -/
def validClock (h mi s : Nat) : Bool :=
  h ≤ 23 && mi ≤ 59 && s ≤ 59

/-- `time.ParseInLocation("20060102150405", v, time.UTC)` on an
all-digit, 14-character input. -/
def parseCompact (v : Str) : Option Int :=
  let y := digitsToNat (v.take 4)
  let mo := digitsToNat ((v.drop 4).take 2)
  let d := digitsToNat ((v.drop 6).take 2)
  let h := digitsToNat ((v.drop 8).take 2)
  let mi := digitsToNat ((v.drop 10).take 2)
  let s := digitsToNat ((v.drop 12).take 2)
  if 1 ≤ mo ∧ mo ≤ 12 ∧ 1 ≤ d ∧ d ≤ daysInMonth y mo ∧ validClock h mi s = true then
    some (toUnixCivil y mo d h mi s)
  else none

/-- Time-zone suffix of an RFC 3339 timestamp: `Z` or `±hh:mm`; the
result is the base time shifted to UTC (Go's `.UTC()`). -/
def parseRFC3339Zone (base : Int) (zone : Str) : Option Int :=
  match zone with
  | ['Z'] => some base
  | sgn :: z1 :: z2 :: ':' :: z3 :: z4 :: [] =>
    if (sgn = '+' || sgn = '-') && [z1, z2, z3, z4].all isDigitChar then
      let zh := digitsToNat [z1, z2]
      let zm := digitsToNat [z3, z4]
      if zh ≤ 23 ∧ zm ≤ 59 then
        let off : Int := (zh * 3600 + zm * 60 : Nat)
        some (if sgn = '+' then base - off else base + off)
      else none
    else none
  | _ => none

/-- `time.Parse(time.RFC3339, v)` followed by `.UTC()`:
`YYYY-MM-DDTHH:MM:SS`, optional `.fraction`, then `Z` or `±hh:mm`. -/
def parseRFC3339 (v : Str) : Option Int :=
  match v with
  | y1 :: y2 :: y3 :: y4 :: '-' :: mo1 :: mo2 :: '-' :: d1 :: d2 :: 'T' ::
      h1 :: h2 :: ':' :: mi1 :: mi2 :: ':' :: s1 :: s2 :: rest =>
    if [y1, y2, y3, y4, mo1, mo2, d1, d2, h1, h2, mi1, mi2, s1, s2].all isDigitChar then
      let y := digitsToNat [y1, y2, y3, y4]
      let mo := digitsToNat [mo1, mo2]
      let d := digitsToNat [d1, d2]
      let h := digitsToNat [h1, h2]
      let mi := digitsToNat [mi1, mi2]
      let s := digitsToNat [s1, s2]
      if 1 ≤ mo ∧ mo ≤ 12 ∧ 1 ≤ d ∧ d ≤ daysInMonth y mo ∧ validClock h mi s = true then
        let zone : Option Str :=
          match rest with
          | '.' :: fr =>
            if fr.takeWhile isDigitChar = [] then none else some (fr.dropWhile isDigitChar)
          | _ => some rest
        match zone with
        | none => none
        | some z => parseRFC3339Zone (toUnixCivil y mo d h mi s) z
      else none
    else none
  | _ => none

/-- The 10-digit Unix-seconds shape accepted by `parseDateTimeFlexible`
(regex `^[0-9]{10}$`). -/
def isTenDigits (v : Str) : Bool :=
  v.length = 10 && v.all isDigitChar

/-- The 14-digit compact shape (regex `^[0-9]{14}$`). -/
def isFourteenDigits (v : Str) : Bool :=
  v.length = 14 && v.all isDigitChar

/-- `utils.parseDateTimeFlexible`: empty input is "now"; otherwise try
10-digit Unix seconds, then 14-digit compact, then RFC 3339. -/
def parseDateTimeFlexible (v : Str) (now : Int) : Option Int :=
  if v = [] then some now
  else if isTenDigits v then some ((digitsToNat v : Nat) : Int)
  else
    match (if isFourteenDigits v then parseCompact v else none) with
    | some t => some t
    | none => parseRFC3339 v

/-!
## Filename construction (`utils/filename.go`)
-/

/-- Regex `^[0-9]{8,20}$` for the device id. -/
def matchImei (s : Str) : Bool :=
  8 ≤ s.length && s.length ≤ 20 && s.all isDigitChar

/-- Regex `^[0-9]{1,3}$` for channel and snapshot index. -/
def matchChannel (s : Str) : Bool :=
  1 ≤ s.length && s.length ≤ 3 && s.all isDigitChar

/-- Regex `^[0-9A-Fa-f]+$` for the snapshot raw hex block. -/
def matchHexBlock (s : Str) : Bool :=
  1 ≤ s.length && s.all isHexChar

/-- The declared multipart form fields handed to the builder. -/
structure FormFields where
  providedFilename : Str
  timestamp : Str
  sign : Str
  imei : Str
  typ : Str
  channel : Str
  datetime : Str
  pattern : Str
  raw : Str
  index : Str

/-- The condition under which `BuildStandardFilename` takes the event
branch. -/
def eventSelected (fields : FormFields) : Prop :=
  trimSpace (strToLower fields.pattern) = "event".toList ∨
    (trimSpace fields.imei ≠ [] ∧ trimSpace (strToUpper fields.typ) ≠ [] ∧
      trimSpace fields.channel ≠ [])

instance (fields : FormFields) : Decidable (eventSelected fields) := by
  unfold eventSelected; infer_instance

/-- Extension derivation of `BuildStandardFilename`: from the original
filename, else from the declared content type, else `.dat`. -/
def deriveExt (fhFilename fhContentType : Str) : Str :=
  let ext0 := strToLower (extOf fhFilename)
  let ext1 :=
    if ext0 = [] then
      if fhContentType = "video/mp4".toList then ".mp4".toList
      else if fhContentType = "video/MP2T".toList ∨ fhContentType = "video/mp2t".toList ∨
          fhContentType = "application/octet-stream".toList then ".ts".toList
      else if fhContentType = "image/jpeg".toList then ".jpg".toList
      else []
    else ext0
  if ext1 = [] then ".dat".toList else ext1

/-- `utils.BuildStandardFilename` translated from the source.  `now` is
the current UTC time used when `datetime` is absent. -/
def BuildStandardFilename (fields : FormFields) (fhFilename fhContentType : Str)
    (now : Int) : Option Str :=
  let imei := trimSpace fields.imei
  let typ := trimSpace (strToUpper fields.typ)
  let channel := trimSpace fields.channel
  let dtRaw := trimSpace fields.datetime
  let ext := deriveExt fhFilename fhContentType
  if eventSelected fields then
    if imei ≠ [] ∧ matchImei imei = false then none
    else if typ ≠ [] ∧ typ ≠ ['I'] ∧ typ ≠ ['F'] then none
    else if channel ≠ [] ∧ matchChannel channel = false then none
    else
      match parseDateTimeFlexible dtRaw now with
      | none => none
      | some t =>
        some ("EVENT_".toList ++ imei ++ "_00000000_".toList ++ formatTS t ++
          '_' :: typ ++ '_' :: channel ++ ext)
  else
    let rawHex := trimSpace fields.raw
    let idx := trimSpace fields.index
    if trimSpace (strToLower fields.pattern) = "snapshot".toList ∨
        (imei ≠ [] ∧ rawHex ≠ []) then
      if imei ≠ [] ∧ matchImei imei = false then none
      else if rawHex ≠ [] ∧ matchHexBlock rawHex = false then none
      else if channel ≠ [] ∧ matchChannel channel = false then none
      else if idx ≠ [] ∧ matchChannel idx = false then none
      else some (imei ++ '_' :: rawHex ++ '_' :: channel ++ '_' :: leftPad idx 2 ++ ext)
    else none

/-!
## Signature (`utils.GenerateSign`)
-/

/-- Lowercase hex digit. -/
def hexDigit (n : Nat) : Char :=
  if n < 10 then Char.ofNat (48 + n) else Char.ofNat (87 + n)

/-- Go `fmt.Sprintf("%x", sum)` on a byte array: lowercase hex, two
digits per byte. -/
def hexLower (bytes : List Nat) : Str :=
  (bytes.map (fun b => [hexDigit (b / 16), hexDigit (b % 16)])).flatten

/-- The standard base64 alphabet. -/
def base64Chars : Str :=
  "ABCDEFGHIJKLMNOPQRSTUVWXYZabcdefghijklmnopqrstuvwxyz0123456789+/".toList

/-- Character of a 6-bit group. -/
def b64Char (n : Nat) : Char := base64Chars.getD n 'A'

/-- Go `base64.StdEncoding.EncodeToString` over a byte list. -/
def base64Encode : List Nat → Str
  | [] => []
  | [a] => [b64Char (a / 4), b64Char (a % 4 * 16), '=', '=']
  | [a, b] => [b64Char (a / 4), b64Char (a % 4 * 16 + b / 16), b64Char (b % 16 * 4), '=']
  | a :: b :: c :: rest =>
    b64Char (a / 4) :: b64Char (a % 4 * 16 + b / 16) ::
      b64Char (b % 16 * 4 + c / 64) :: b64Char (c % 64) :: base64Encode rest

/-- `utils.GenerateSign`: base64 of the lowercase-hex MD5 digest of
`filename ++ timestamp ++ secret`.  The MD5 digest itself is the
`crypto/md5` collaborator, passed in as the function `md5` returning the
16 digest bytes. -/
def GenerateSign (md5 : Str → List Nat) (filename timestamp secret : Str) : Str :=
  base64Encode ((hexLower (md5 (filename ++ timestamp ++ secret))).map Char.toNat)

/-!
## Configuration (`config/config.go`)
-/

/-- The configuration fields consumed by the pipeline and handler. -/
structure Config where
  secretKey : Str
  enableSecret : Bool
  videoPath : Str
  backupPath : Str
  disasterRecoveryMode : Bool
  enableLocalStorage : Bool
  enableTsToMp4 : Bool
  enableS3Upload : Bool
  enableRabbitMQ : Bool
  s3Bucket : Str
  s3Endpoint : Str
  maxConcurrentWorkers : Int
  enableCompression : Bool

/-- Nonempty all-digit string to its value, else failure. -/
def parseDigits (s : Str) : Option Nat :=
  if s ≠ [] ∧ s.all isDigitChar = true then some (digitsToNat s) else none

/-- Go `strconv.Atoi`: optional sign, decimal digits, 64-bit range. -/
def goAtoi (s : Str) : Option Int :=
  match s with
  | '+' :: rest => (parseDigits rest).bind fun n =>
      if n ≤ 2 ^ 63 - 1 then some (n : Int) else none
  | '-' :: rest => (parseDigits rest).bind fun n =>
      if n ≤ 2 ^ 63 then some (-(n : Int)) else none
  | _ => (parseDigits s).bind fun n =>
      if n ≤ 2 ^ 63 - 1 then some (n : Int) else none

/-- `config.getEnvAsInt`: an empty (unset) or unparseable environment
value falls back to the default. -/
def getEnvAsInt (valStr : Str) (d : Int) : Int :=
  if valStr = [] then d
  else
    match goAtoi valStr with
    | some v => v
    | none => d

/-- The `MaxConcurrentWorkers` field `config.LoadConfig` builds from the
`MAX_CONCURRENT_WORKERS` environment value (empty means unset):
`getEnvAsInt("MAX_CONCURRENT_WORKERS", 6)`. -/
def loadMaxConcurrentWorkers (envVal : Str) : Int :=
  getEnvAsInt envVal 6

/-- The worker-pool capacity chosen by `handlers.NewHandler`: the
configured count, replaced by 2 when that count is ≤ 0. -/
def newHandlerMaxWorkers (maxConcurrentWorkers : Int) : Int :=
  if maxConcurrentWorkers ≤ 0 then 2 else maxConcurrentWorkers

/-!
## External collaborator outcomes

One pipeline run's interactions with ffmpeg/ffprobe, the AWS SDK, the
S3 endpoint, RabbitMQ and the final-directory rename are fixed by this
environment record.
-/

/-- Outcomes of the external collaborators during one pipeline run. -/
structure PipelineEnv where
  remuxAttempt1Ok : Bool
  remuxAttempt2Ok : Bool
  remuxOutSize : Nat
  ffprobeHasVideo : Bool
  ffmpegCompressOk : Bool
  compressOutSize : Nat
  awsLoadOk : Bool
  s3ClientInit : Bool
  s3PutOk : Bool
  renameToFinalOk : Bool
  copyToFinalOk : Bool
  rabbitConfigured : Bool
  publishOk : Bool
  panicInBody : Bool

/-- `storage.initS3`: the S3 client is initialized exactly when remote
upload is enabled, bucket and endpoint are configured, and the AWS SDK
configuration loads. -/
def s3ClientInitialized (cfg : Config) (awsLoadOk : Bool) : Bool :=
  cfg.enableS3Upload && cfg.s3Bucket ≠ [] && cfg.s3Endpoint ≠ [] && awsLoadOk

/-!
## Transcoder (`processor/ffmpeg.go`)
-/

/-- Output path of `processor.ConvertTSToMP4`:
`strings.TrimSuffix(inputPath, filepath.Ext(inputPath)) + ".mp4"`. -/
def remuxOutPath (p : Str) : Str :=
  trimSuffix p (extOf p) ++ ".mp4".toList

/-- `processor.ConvertTSToMP4`: plain stream-copy remux, retried once
with the `aac_adtstoasc` bitstream filter; on success the output file is
written, on double failure nothing is produced. -/
def ConvertTSToMP4 (env : PipelineEnv) (fs : FS) (inputPath : Str) : FS × Option Str :=
  let outputPath := remuxOutPath inputPath
  if env.remuxAttempt1Ok then (fsInsert fs outputPath env.remuxOutSize, some outputPath)
  else if env.remuxAttempt2Ok then (fsInsert fs outputPath env.remuxOutSize, some outputPath)
  else (fs, none)

/-- Output path of `processor.CompressWithFFmpeg`:
`inputPath + ".compressed.mp4"`. -/
def compressOutPath (p : Str) : Str :=
  p ++ ".compressed.mp4".toList

/-- `processor.CompressWithFFmpeg`: a file without a video stream (or an
ffprobe failure) returns an empty path and nil error; an ffmpeg failure
returns an error; success writes the compressed output. -/
def CompressWithFFmpeg (env : PipelineEnv) (fs : FS) (inputPath : Str) : FS × Option Str :=
  if ¬ env.ffprobeHasVideo then (fs, some [])
  else if env.ffmpegCompressOk then
    (fsInsert fs (compressOutPath inputPath) env.compressOutSize,
      some (compressOutPath inputPath))
  else (fs, none)

/-!
## Object store (`storage/storage.go`)
-/

/-- The content-type tag of `storage.UploadFileToS3`, switched on the
lower-cased extension of the key filename. -/
def contentTypeFor (filename : Str) : Str :=
  let e := strToLower (extOf filename)
  if e = ".mp4".toList then "video/mp4".toList
  else if e = ".ts".toList then "video/MP2T".toList
  else if e = ".jpg".toList ∨ e = ".jpeg".toList then "image/jpeg".toList
  else "application/octet-stream".toList

/-- `storage.UploadFileToS3`: a nil client or empty bucket skips the
upload and returns success; otherwise the file is opened and put.  The
result is the success flag and the `PutObject` calls made, as
(local path, key, content type). -/
def UploadFileToS3 (cfg : Config) (env : PipelineEnv) (fs : FS) (filePath filename : Str) :
    Bool × List (Str × Str × Str) :=
  if ¬ env.s3ClientInit ∨ cfg.s3Bucket = [] then (true, [])
  else
    match fsStat fs filePath with
    | none => (false, [])
    | some _ => (env.s3PutOk, [(filePath, filename, contentTypeFor filename)])

/-!
## The processing pipeline (`handlers.processFile`)
-/

/-- The event published to RabbitMQ (`queue.UploadEvent`). -/
structure UploadEvent where
  filename : Str
  size : Nat
  path : Str
deriving DecidableEq

/-- Worker-semaphore operations: `h.workerSemaphore <- struct{}{}` and
`<-h.workerSemaphore`. -/
inductive SemOp where
  | acquire : SemOp
  | release : SemOp
deriving DecidableEq

/-- The mutable local variables of `processFile` between stages. -/
structure PipeState where
  fs : FS
  uploadPath : Str
  uploadFilename : Str
  currentSize : Nat
  ext : Str

/-- Observable outcome of one `processFile` run: final staging area,
`PutObject` calls, published events, counter increments, final variable
values, whether the function ran to completion (as opposed to the
terminal-failure early return or a caught panic), and the semaphore
operations performed. -/
structure PFResult where
  fs : FS
  s3Puts : List (Str × Str × Str)
  events : List UploadEvent
  failedInc : Nat
  successInc : Nat
  mediaInc : Nat
  uploadPath : Str
  uploadFilename : Str
  currentSize : Nat
  finalDestPath : Str
  completed : Bool
  semOps : List SemOp

/-- The cleanup in `processFile`'s deferred function: remove the current
upload path if it is nonempty, contains `.processing`, and still
exists. -/
def deferCleanup (fs : FS) (uploadPath : Str) : FS :=
  if uploadPath ≠ [] ∧ strContains uploadPath ".processing".toList = true ∧
      (fsStat fs uploadPath).isSome = true then
    fsRemove fs uploadPath
  else fs

/-- The optional TS→MP4 remux stage of `processFile`.  On success the
original staged file is deleted and path, canonical filename, size and
extension are updated; on failure the original is kept. -/
def remuxStage (cfg : Config) (env : PipelineEnv) (filename : Str) (st : PipeState) :
    PipeState :=
  if st.ext = ".ts".toList ∧ cfg.enableTsToMp4 = true then
    match ConvertTSToMP4 env st.fs st.uploadPath with
    | (fs1, some convertedPath) =>
      match fsStat fs1 convertedPath with
      | some newSize =>
        { fs := fsRemove fs1 st.uploadPath
          uploadPath := convertedPath
          uploadFilename := trimSuffix filename st.ext ++ ".mp4".toList
          currentSize := newSize
          ext := ".mp4".toList }
      | none => { st with fs := fsRemove fs1 convertedPath }
    | (fs1, none) => { st with fs := fs1 }
  else st

/-- The optional MP4 recompression stage of `processFile`.  The
compressed output replaces the payload only when strictly smaller than
the on-disk original and nonempty; otherwise it is discarded. -/
def compressStage (cfg : Config) (env : PipelineEnv) (st : PipeState) : PipeState :=
  if st.ext = ".mp4".toList ∧ cfg.enableCompression = true then
    match CompressWithFFmpeg env st.fs st.uploadPath with
    | (fs1, some compressedPath) =>
      match fsStat fs1 st.uploadPath, fsStat fs1 compressedPath with
      | some origSize, some compSize =>
        if compSize < origSize ∧ 0 < compSize then
          { st with
            fs := fsRemove fs1 st.uploadPath
            uploadPath := compressedPath
            currentSize := compSize }
        else { st with fs := fsRemove fs1 compressedPath }
      | _, _ => { st with fs := fsRemove fs1 compressedPath }
    | (fs1, none) => { st with fs := fs1 }
  else st

/-- Finalization (move into the visible directory, or nothing when local
storage is off) and event publish, followed by the deferred
cleanup/release.  Publish failure is logged only and does not change the
outcome. -/
def finishPipeline (cfg : Config) (env : PipelineEnv) (targetFinalPath : Str)
    (isLocal : Bool) (puts : List (Str × Str × Str)) (st : PipeState) : PFResult :=
  let moved : FS × Str :=
    if isLocal then
      let finalDestPath := joinPath (dirOf targetFinalPath) st.uploadFilename
      match fsStat st.fs st.uploadPath with
      | some sz =>
        if env.renameToFinalOk then
          (fsInsert (fsRemove st.fs st.uploadPath) finalDestPath sz, finalDestPath)
        else if env.copyToFinalOk then
          (fsRemove (fsInsert st.fs finalDestPath sz) st.uploadPath, finalDestPath)
        else (st.fs, st.uploadPath)
      | none => (st.fs, st.uploadPath)
    else (st.fs, [])
  let events :=
    if cfg.enableRabbitMQ = true ∧ env.rabbitConfigured = true then
      [UploadEvent.mk st.uploadFilename st.currentSize moved.2]
    else []
  { fs := deferCleanup moved.1 st.uploadPath
    s3Puts := puts
    events := events
    failedInc := 0
    successInc := 1
    mediaInc := 1
    uploadPath := st.uploadPath
    uploadFilename := st.uploadFilename
    currentSize := st.currentSize
    finalDestPath := moved.2
    completed := true
    semOps := [SemOp.acquire, SemOp.release] }

/-- `handlers.processFile`: the background pipeline for one task, from
semaphore acquisition to the deferred cleanup and release.  A body panic
(`env.panicInBody`) is caught by the deferred `recover`; the deferred
cleanup and the semaphore release still run (the body contains no
semaphore operation, so the trace does not depend on where the panic
occurs). -/
def processFile (cfg : Config) (env : PipelineEnv) (path filename targetFinalPath : Str)
    (isLocal : Bool) (initialSize : Nat) (fs0 : FS) : PFResult :=
  let st0 : PipeState :=
    ⟨fs0, path, filename, initialSize, strToLower (extOf filename)⟩
  if env.panicInBody then
    { fs := deferCleanup fs0 path, s3Puts := [], events := [], failedInc := 0,
      successInc := 0, mediaInc := 0, uploadPath := path, uploadFilename := filename,
      currentSize := initialSize, finalDestPath := [], completed := false,
      semOps := [SemOp.acquire, SemOp.release] }
  else
    let st1 := remuxStage cfg env filename st0
    let st2 := compressStage cfg env st1
    if cfg.enableS3Upload then
      match UploadFileToS3 cfg env st2.fs st2.uploadPath st2.uploadFilename with
      | (true, puts) => finishPipeline cfg env targetFinalPath isLocal puts st2
      | (false, puts) =>
        { fs := deferCleanup st2.fs st2.uploadPath, s3Puts := puts, events := [],
          failedInc := 1, successInc := 0, mediaInc := 0, uploadPath := st2.uploadPath,
          uploadFilename := st2.uploadFilename, currentSize := st2.currentSize,
          finalDestPath := [], completed := false,
          semOps := [SemOp.acquire, SemOp.release] }
    else finishPipeline cfg env targetFinalPath isLocal [] st2

/-- The original-name reconstruction in `handlers.StartRecoveryTask`:
strip a trailing `.<token>.tmp` exactly when the token between the last
two remaining dots is 36 or 32 characters long. -/
def recoverOriginalName (name : Str) : Str :=
  if hasSuffix name ".tmp".toList then
    match lastIndexC (trimSuffix name ".tmp".toList) '.' with
    | some lastDot =>
      if ((trimSuffix name ".tmp".toList).drop (lastDot + 1)).length = 36 ∨
          ((trimSuffix name ".tmp".toList).drop (lastDot + 1)).length = 32 then
        (trimSuffix name ".tmp".toList).take lastDot
      else name
    | none => name
  else name

/-!
## The ingestion handler (`handlers.UploadHandler`)

The model starts at the point where the multipart file part has been
streamed to disk and all declared form fields have been read
(handlers.go:558 onwards); the claims under verification concern this
suffix of the handler.
-/

/-- Observable outcome of the ingestion handler: HTTP status, JSON body
code/message/data, the resulting staging area, and the background task
spawned (if any) with the arguments passed to `processFile`
(processing path, filename, target final path, isLocal, size). -/
structure HandlerResult where
  status : Nat
  code : Nat
  message : Str
  data : Option Str
  fs : FS
  spawned : Option (Str × Str × Str × Bool × Nat)

/-- Handler-side environment: `os.TempDir()` and the outcomes of the
rename/copy into the processing directory. -/
structure HandlerEnv where
  tmpDir : Str
  renameOk : Bool
  copyOk : Bool

/-- The deferred cleanup of `UploadHandler`: remove the streamed
temporary file if its variable is still set and the file exists. -/
def handlerDefer (fs : FS) (streamedTempPath : Str) : FS :=
  if streamedTempPath ≠ [] ∧ (fsStat fs streamedTempPath).isSome = true then
    fsRemove fs streamedTempPath
  else fs

/-- The final filename computed by `UploadHandler`: the trimmed override
if supplied, else the built standard name when nonempty, else the
sender's original name; always reduced to a bare base name. -/
def computeFinalFilename (fields : FormFields) (fhFilename : Str) (now : Int) : Str :=
  let builtName := BuildStandardFilename fields fhFilename [] now
  let f0 := trimSpace fields.providedFilename
  let f1 :=
    if f0 = [] then
      match builtName with
      | some b => if b ≠ [] then b else fhFilename
      | none => fhFilename
    else f0
  baseName f1

/-- The base string of the signature check: the client-supplied override
filename when non-blank, else the final filename. -/
def baseForSign (providedFilename finalFilename : Str) : Str :=
  if trimSpace providedFilename = [] then finalFilename else providedFilename

/-- `handlers.UploadHandler` from the point where the file part has been
streamed to `tempPath` (`n` bytes): filename construction, length check,
signature check, saved-path selection, move into the processing
directory, task spawn and response, with the deferred stream-file
cleanup applied on every exit. -/
def UploadHandlerAfterStream (cfg : Config) (henv : HandlerEnv) (fields : FormFields)
    (fhFilename : Str) (n : Nat) (tempPath requestID : Str) (now : Int)
    (md5 : Str → List Nat) (fs0 : FS) : HandlerResult :=
  let finalFilename := computeFinalFilename fields fhFilename now
  if 255 < finalFilename.length then
    ⟨500, 500, "File name too long".toList, none, handlerDefer fs0 tempPath, none⟩
  else if cfg.enableSecret = true ∧
      fields.sign ≠ GenerateSign md5 (baseForSign fields.providedFilename finalFilename)
        fields.timestamp cfg.secretKey then
    ⟨400, 400, "Signature error".toList, none, handlerDefer fs0 tempPath, none⟩
  else if cfg.enableLocalStorage = true ∧ cfg.disasterRecoveryMode = true ∧
      cfg.backupPath = [] then
    ⟨500, 500, "Disaster recovery misconfigured".toList, none,
      handlerDefer fs0 tempPath, none⟩
  else
    let savedPath :=
      if cfg.enableLocalStorage = false then joinPath henv.tmpDir finalFilename
      else if cfg.disasterRecoveryMode then joinPath cfg.backupPath finalFilename
      else joinPath cfg.videoPath finalFilename
    let uploadDir :=
      if cfg.disasterRecoveryMode = true ∧ cfg.backupPath ≠ [] then cfg.backupPath
      else cfg.videoPath
    let processingBase :=
      joinPath (dirOf uploadDir) (".processing_".toList ++ baseName uploadDir)
    let processingPath :=
      joinPath processingBase (finalFilename ++ '.' :: requestID ++ ".tmp".toList)
    match fsStat fs0 tempPath with
    | some sz =>
      if henv.renameOk then
        ⟨200, 200, "File upload success".toList, some finalFilename,
          fsInsert (fsRemove fs0 tempPath) processingPath sz,
          some (processingPath, finalFilename, savedPath, cfg.enableLocalStorage, n)⟩
      else if henv.copyOk then
        ⟨200, 200, "File upload success".toList, some finalFilename,
          fsRemove (fsInsert fs0 processingPath sz) tempPath,
          some (processingPath, finalFilename, savedPath, cfg.enableLocalStorage, n)⟩
      else
        ⟨500, 500, "Failed to save file".toList, none, handlerDefer fs0 tempPath, none⟩
    | none =>
      ⟨500, 500, "Failed to save file".toList, none, handlerDefer fs0 tempPath, none⟩

/-!
## Worker-semaphore semantics

`workerSemaphore` is a Go channel of capacity `maxWorkers`; a send
(acquire) completes only while fewer than `cap` slots are held, a
receive (release) only while a slot is held.  `semRun` replays a
sequence of completed operations, an arbitrary interleaving of the
per-task traces.
-/

/-- One completed operation on the capacity-`cap` counting semaphore. -/
def semStep (cap held : Nat) : SemOp → Option Nat
  | SemOp.acquire => if held < cap then some (held + 1) else none
  | SemOp.release => if 0 < held then some (held - 1) else none

/-- Replay a sequence of completed semaphore operations from `held`
slots, returning the held-slot count after each operation. -/
def semRun (cap : Nat) : Nat → List SemOp → Option (List Nat)
  | _, [] => some []
  | held, op :: rest =>
    match semStep cap held op with
    | some h2 => (semRun cap h2 rest).map (fun l => h2 :: l)
    | none => none

/-!
## Lemmas about the string model
-/

theorem startsWith_self_append (a b : Str) : startsWith (a ++ b) a = true := by
  induction a with
  | nil => cases b <;> rfl
  | cons c t ih => simp [startsWith, ih]

theorem startsWith_decomp {s p : Str} (h : startsWith s p = true) : ∃ r, s = p ++ r := by
  induction p generalizing s with
  | nil => exact ⟨s, rfl⟩
  | cons c t ih =>
    cases s with
    | nil => simp [startsWith] at h
    | cons a s2 =>
      simp only [startsWith, Bool.and_eq_true, decide_eq_true_eq] at h
      obtain ⟨rfl, h2⟩ := h
      obtain ⟨r, rfl⟩ := ih h2
      exact ⟨r, rfl⟩

theorem startsWith_append_right {s p : Str} (b : Str) (h : startsWith s p = true) :
    startsWith (s ++ b) p = true := by
  obtain ⟨r, rfl⟩ := startsWith_decomp h
  rw [List.append_assoc]
  exact startsWith_self_append _ _

theorem strContains_nil_right (s : Str) : strContains s [] = true := by
  induction s with
  | nil => rfl
  | cons c t ih => simp [strContains, ih]

theorem strContains_append_left {a sub : Str} (b : Str) (h : strContains a sub = true) :
    strContains (a ++ b) sub = true := by
  induction a with
  | nil =>
    simp only [strContains, List.isEmpty_iff] at h
    subst h
    exact strContains_nil_right b
  | cons c t ih =>
    simp only [strContains, Bool.or_eq_true] at h ⊢
    rcases h with h | h
    · exact Or.inl (startsWith_append_right b h)
    · exact Or.inr (ih h)

theorem ne_nil_of_strContains {s sub : Str} (hsub : sub ≠ []) (h : strContains s sub = true) :
    s ≠ [] := by
  intro hs
  subst hs
  simp only [strContains, List.isEmpty_iff] at h
  exact hsub h

theorem hasSuffix_append (x suf : Str) : hasSuffix (x ++ suf) suf = true := by
  unfold hasSuffix
  rw [List.reverse_append]
  exact startsWith_self_append _ _

theorem hasSuffix_decomp {s suf : Str} (h : hasSuffix s suf = true) :
    ∃ pre, s = pre ++ suf := by
  unfold hasSuffix at h
  obtain ⟨r, hr⟩ := startsWith_decomp h
  refine ⟨r.reverse, ?_⟩
  have := congrArg List.reverse hr
  simpa using this

theorem take_length_append (x y : Str) : (x ++ y).take x.length = x := by
  induction x with
  | nil => rfl
  | cons c t ih => simp [ih]

theorem drop_length_append (x y : Str) : (x ++ y).drop x.length = y := by
  induction x with
  | nil => rfl
  | cons c t ih => simp [ih]

theorem trimSuffix_append (x suf : Str) : trimSuffix (x ++ suf) suf = x := by
  unfold trimSuffix
  rw [hasSuffix_append]
  simp only [if_true, List.length_append, Nat.add_sub_cancel]
  exact take_length_append x suf

theorem lastIndexC_eq_none_iff {l : Str} {c : Char} : lastIndexC l c = none ↔ c ∉ l := by
  induction l with
  | nil => simp [lastIndexC]
  | cons a t ih =>
    constructor
    · intro h hmem
      unfold lastIndexC at h
      cases ht : lastIndexC t c with
      | some i => rw [ht] at h; simp at h
      | none =>
        rw [ht] at h
        by_cases hac : a = c
        · simp [hac] at h
        · rcases List.mem_cons.mp hmem with h1 | h1
          · exact hac h1.symm
          · exact (ih.mp ht) h1
    · intro h
      have ht : lastIndexC t c = none := ih.mpr fun hm => h (List.mem_cons_of_mem _ hm)
      have hac : ¬ a = c := fun he => h (he ▸ List.mem_cons_self _ _)
      unfold lastIndexC
      rw [ht, if_neg hac]

theorem lastIndexC_append_cons (base tok : Str) (c : Char) (h : c ∉ tok) :
    lastIndexC (base ++ c :: tok) c = some base.length := by
  induction base with
  | nil =>
    show lastIndexC (c :: tok) c = some 0
    unfold lastIndexC
    rw [lastIndexC_eq_none_iff.mpr h]
    simp
  | cons a t ih =>
    show lastIndexC (a :: (t ++ c :: tok)) c = _
    unfold lastIndexC
    rw [ih]
    simp

theorem lastIndexC_some_decomp {l : Str} {c : Char} {i : Nat}
    (h : lastIndexC l c = some i) : ∃ a b : Str, l = a ++ c :: b ∧ a.length = i ∧ c ∉ b := by
  induction l generalizing i with
  | nil => simp [lastIndexC] at h
  | cons x t ih =>
    unfold lastIndexC at h
    cases ht : lastIndexC t c with
    | some j =>
      rw [ht] at h
      obtain ⟨a, b, rfl, ha, hb⟩ := ih ht
      have hij : j + 1 = i := by simpa using h
      exact ⟨x :: a, b, rfl, by simp [ha, hij], hb⟩
    | none =>
      rw [ht] at h
      by_cases hxc : x = c
      · rw [if_pos hxc] at h
        have hi : i = 0 := by simpa using h.symm
        subst hi
        exact ⟨[], t, by simp [hxc], rfl, lastIndexC_eq_none_iff.mp ht⟩
      · rw [if_neg hxc] at h
        simp at h

/-!
## Claim C6 — worker-pool capacity
-/

/-- C6 counterexample: with `MAX_CONCURRENT_WORKERS` unset, the config
loader defaults the count to 6, so the worker-pool capacity built by
`NewHandler` is 6, not the claimed 2. -/
theorem C6_counterexample :
    newHandlerMaxWorkers (loadMaxConcurrentWorkers []) = 6 ∧
      newHandlerMaxWorkers (loadMaxConcurrentWorkers []) ≠ 2 := by
  constructor <;> decide

/-- C6 (amended): the worker pool's fixed capacity equals the configured
worker count when positive and 2 when that count is ≤ 0; an unconfigured
(or unparseable) `MAX_CONCURRENT_WORKERS` is defaulted to 6 by the config
loader, so the capacity is then 6. -/
theorem C6_amended :
    (∀ envVal : Str,
        newHandlerMaxWorkers (loadMaxConcurrentWorkers envVal) =
          if loadMaxConcurrentWorkers envVal ≤ 0 then 2
          else loadMaxConcurrentWorkers envVal) ∧
      loadMaxConcurrentWorkers [] = 6 ∧
      newHandlerMaxWorkers (loadMaxConcurrentWorkers []) = 6 := by
  exact ⟨fun envVal => rfl, by decide, by decide⟩

/-!
## Claim C8 — recovery filename reconstruction
-/

/-- C8: the Recovery Scanner reconstructs the original canonical
filename by stripping a trailing `.<token>.tmp` exactly when the name
ends in `.tmp` and the token between the last two remaining dots is 32
or 36 characters long; any name whose shape differs is left untouched
(a changed name always has that shape). -/
theorem C8_recovery_reconstruction :
    (∀ base tok : Str, '.' ∉ tok → (tok.length = 32 ∨ tok.length = 36) →
        recoverOriginalName (base ++ '.' :: (tok ++ ".tmp".toList)) = base) ∧
      (∀ name : Str, recoverOriginalName name ≠ name →
        ∃ base tok : Str, name = base ++ '.' :: (tok ++ ".tmp".toList) ∧ '.' ∉ tok ∧
          (tok.length = 32 ∨ tok.length = 36) ∧ recoverOriginalName name = base) := by
  constructor
  · intro base tok hdot hlen
    unfold recoverOriginalName
    have hshape : base ++ '.' :: (tok ++ ".tmp".toList) =
        (base ++ '.' :: tok) ++ ".tmp".toList := by simp
    rw [hshape, hasSuffix_append, if_pos rfl, trimSuffix_append,
      lastIndexC_append_cons base tok '.' hdot]
    dsimp only
    have hdrop : (base ++ '.' :: tok).drop (base.length + 1) = tok := by
      have h1 : base ++ '.' :: tok = (base ++ ['.']) ++ tok := by simp
      have hl : (base ++ ['.']).length = base.length + 1 := by simp
      rw [h1, ← hl]
      exact drop_length_append _ _
    rw [hdrop]
    have hcond : tok.length = 36 ∨ tok.length = 32 := hlen.symm
    rw [if_pos hcond]
    exact take_length_append base ('.' :: tok)
  · intro name hne
    by_cases hsuf : hasSuffix name ".tmp".toList = true
    · obtain ⟨pre, rfl⟩ := hasSuffix_decomp hsuf
      unfold recoverOriginalName at hne ⊢
      rw [if_pos hsuf, trimSuffix_append] at hne ⊢
      cases hli : lastIndexC pre '.' with
      | none =>
        rw [hli] at hne
        exact absurd rfl hne
      | some i =>
        dsimp only at hne ⊢
        obtain ⟨a, b, rfl, ha, hb⟩ := lastIndexC_some_decomp hli
        by_cases hcond : ((a ++ '.' :: b).drop (i + 1)).length = 36 ∨
            ((a ++ '.' :: b).drop (i + 1)).length = 32
        · rw [if_pos hcond]
          have hdrop : (a ++ '.' :: b).drop (i + 1) = b := by
            have h1 : a ++ '.' :: b = (a ++ ['.']) ++ b := by simp
            have hl : (a ++ ['.']).length = i + 1 := by simp [ha]
            rw [h1, ← hl]
            exact drop_length_append _ _
          have htake : (a ++ '.' :: b).take i = a := by
            rw [← ha]
            exact take_length_append a ('.' :: b)
          refine ⟨a, b, by simp, hb, ?_, htake⟩
          rw [hdrop] at hcond
          exact hcond.symm
        · rw [hli] at hne
          dsimp only at hne
          rw [if_neg hcond] at hne
          exact absurd rfl hne
    · unfold recoverOriginalName at hne
      rw [if_neg hsuf] at hne
      exact absurd rfl hne

/-- C8 witness: a staged name carrying a 36-character UUID token is
stripped back to its canonical name. -/
theorem C8_recovery_reconstruction_witness :
    recoverOriginalName ("video.mp4".toList ++ '.' ::
        ("123e4567-e89b-12d3-a456-426614174000".toList ++ ".tmp".toList)) =
      "video.mp4".toList :=
  C8_recovery_reconstruction.1 "video.mp4".toList
    "123e4567-e89b-12d3-a456-426614174000".toList (by decide) (by decide)

/-!
## Claim C2 — worker-pool admission bound
-/

/-- A concrete configuration used by witness instantiations. -/
def cfgW : Config :=
  ⟨"k".toList, true, "/data/upload".toList, "/data/backup".toList, false, true,
    true, true, true, "bucket".toList, "endpoint".toList, 6, true⟩

/-- A concrete collaborator environment used by witness instantiations. -/
def envW : PipelineEnv :=
  ⟨true, false, 100, true, true, 50, true, true, true, true, true, true, true, false⟩

theorem semRun_all_le (cap : Nat) :
    ∀ (ops : List SemOp) (held : Nat) (states : List Nat), held ≤ cap →
      semRun cap held ops = some states → states.all (fun s => s ≤ cap) = true := by
  intro ops
  induction ops with
  | nil =>
    intro held states _ hrun
    simp only [semRun, Option.some.injEq] at hrun
    subst hrun
    rfl
  | cons op rest ih =>
    intro held states hle hrun
    unfold semRun at hrun
    cases hstep : semStep cap held op with
    | none => rw [hstep] at hrun; simp at hrun
    | some h2 =>
      rw [hstep] at hrun
      dsimp only at hrun
      cases hrec : semRun cap h2 rest with
      | none => rw [hrec] at hrun; simp at hrun
      | some l =>
        rw [hrec] at hrun
        simp at hrun
        subst hrun
        have hh2 : h2 ≤ cap := by
          unfold semStep at hstep
          cases op with
          | acquire =>
            by_cases hc : held < cap
            · rw [if_pos hc] at hstep
              have := Option.some.inj hstep
              omega
            · rw [if_neg hc] at hstep; simp at hstep
          | release =>
            by_cases hc : 0 < held
            · rw [if_pos hc] at hstep
              have := Option.some.inj hstep
              omega
            · rw [if_neg hc] at hstep; simp at hstep
        simp only [List.all_cons, Bool.and_eq_true, decide_eq_true_eq]
        exact ⟨hh2, ih h2 l hh2 hrec⟩

/-- C2: every `processFile` run performs exactly one semaphore acquire
followed by exactly one release — on the normal path, on the
terminal-failure early return, and on the caught-panic path alike (the
release sits in the deferred function and the body contains no semaphore
operation) — and replaying any completed interleaving of semaphore
operations against the capacity-`cap` channel never exceeds `cap` held
slots at any instant. -/
theorem C2_worker_pool_bound :
    (∀ cfg env path filename targetFinalPath isLocal initialSize fs0,
        (processFile cfg env path filename targetFinalPath isLocal initialSize
            fs0).semOps = [SemOp.acquire, SemOp.release]) ∧
      (∀ cap ops states, semRun cap 0 ops = some states →
        states.all (fun s => s ≤ cap) = true) := by
  constructor
  · intro cfg env path filename targetFinalPath isLocal initialSize fs0
    unfold processFile
    dsimp only
    split
    · rfl
    · split
      · split
        · unfold finishPipeline; rfl
        · rfl
      · unfold finishPipeline; rfl
  · intro cap ops states hrun
    exact semRun_all_le cap ops 0 states (Nat.zero_le cap) hrun

/-- C2 witness: a concrete run's trace, and the bound evaluated on the
completed replay of that trace at capacity 2. -/
theorem C2_worker_pool_bound_witness :
    (processFile cfgW envW "/d/.processing_v/a.ts.u.tmp".toList "a.ts".toList
        "/d/v/a.ts".toList true 7 []).semOps = [SemOp.acquire, SemOp.release] ∧
      ([1, 0] : List Nat).all (fun s => s ≤ 2) = true :=
  ⟨C2_worker_pool_bound.1 cfgW envW _ _ _ true 7 [],
    C2_worker_pool_bound.2 2 [SemOp.acquire, SemOp.release] [1, 0] (by decide)⟩

/-!
## Lemmas about the filesystem model
-/

theorem fsStat_fsRemove_ne (fs : FS) {p q : Str} (h : q ≠ p) :
    fsStat (fsRemove fs p) q = fsStat fs q := by
  induction fs with
  | nil => rfl
  | cons e t ih =>
    simp only [fsRemove, fsStat]
    by_cases he : e.1 = p
    · rw [if_pos he, ih, if_neg fun hq => h (hq.symm.trans he)]
    · rw [if_neg he]
      simp only [fsStat]
      by_cases heq : e.1 = q
      · rw [if_pos heq, if_pos heq]
      · rw [if_neg heq, if_neg heq, ih]

theorem fsStat_fsRemove_self (fs : FS) (p : Str) : fsStat (fsRemove fs p) p = none := by
  induction fs with
  | nil => rfl
  | cons e t ih =>
    simp only [fsRemove]
    by_cases he : e.1 = p
    · rw [if_pos he]; exact ih
    · rw [if_neg he]
      simp only [fsStat]
      rw [if_neg he]
      exact ih

theorem fsStat_fsInsert_self (fs : FS) (p : Str) (n : Nat) :
    fsStat (fsInsert fs p n) p = some n := by
  simp [fsInsert, fsStat]

theorem fsStat_fsInsert_ne (fs : FS) {p q : Str} (n : Nat) (h : q ≠ p) :
    fsStat (fsInsert fs p n) q = fsStat fs q := by
  simp only [fsInsert, fsStat]
  rw [if_neg fun hp => h hp.symm]
  exact fsStat_fsRemove_ne fs h

theorem fsRemove_singleton (p : Str) (n : Nat) : fsRemove [(p, n)] p = [] := by
  simp [fsRemove]

/-!
## Scenario characterizations of the pipeline stages
-/

theorem compressOutPath_ne (p : Str) : compressOutPath p ≠ p := by
  intro h
  have hlen := congrArg List.length h
  rw [compressOutPath, List.length_append] at hlen
  have h15 : (".compressed.mp4".toList).length = 15 := by decide
  rw [h15] at hlen
  omega

theorem compressOutPath_ne_nil (p : Str) : compressOutPath p ≠ [] := by
  intro h
  have hlen := congrArg List.length h
  rw [compressOutPath, List.length_append] at hlen
  have h15 : (".compressed.mp4".toList).length = 15 := by decide
  rw [h15] at hlen
  simp at hlen

theorem compressStage_skip (cfg : Config) (env : PipelineEnv) (st : PipeState)
    (h : ¬ (st.ext = ".mp4".toList ∧ cfg.enableCompression = true)) :
    compressStage cfg env st = st := by
  unfold compressStage
  rw [if_neg h]

theorem compressStage_noVideo (cfg : Config) (env : PipelineEnv) (st : PipeState)
    (happ : st.ext = ".mp4".toList ∧ cfg.enableCompression = true)
    (hvid : env.ffprobeHasVideo = false)
    (hempty : fsStat st.fs [] = none) :
    compressStage cfg env st = { st with fs := fsRemove st.fs [] } := by
  unfold compressStage CompressWithFFmpeg
  rw [if_pos happ, hvid]
  simp only [Bool.false_eq_true, not_false_eq_true, if_true]
  rw [hempty]
  cases hstat : fsStat st.fs st.uploadPath <;> rfl

theorem compressStage_ffmpegFail (cfg : Config) (env : PipelineEnv) (st : PipeState)
    (happ : st.ext = ".mp4".toList ∧ cfg.enableCompression = true)
    (hvid : env.ffprobeHasVideo = true)
    (hok : env.ffmpegCompressOk = false) :
    compressStage cfg env st = st := by
  unfold compressStage CompressWithFFmpeg
  rw [if_pos happ, hvid, hok]
  simp only [Bool.true_eq_false, not_true_eq_false, if_false, Bool.false_eq_true, if_false]

theorem compressStage_replace (cfg : Config) (env : PipelineEnv) (st : PipeState)
    (happ : st.ext = ".mp4".toList ∧ cfg.enableCompression = true)
    (hvid : env.ffprobeHasVideo = true)
    (hok : env.ffmpegCompressOk = true)
    (hdisk : fsStat st.fs st.uploadPath = some st.currentSize)
    (hsize : env.compressOutSize < st.currentSize ∧ 0 < env.compressOutSize) :
    compressStage cfg env st =
      { fs := fsRemove (fsInsert st.fs (compressOutPath st.uploadPath)
            env.compressOutSize) st.uploadPath
        uploadPath := compressOutPath st.uploadPath
        uploadFilename := st.uploadFilename
        currentSize := env.compressOutSize
        ext := st.ext } := by
  unfold compressStage CompressWithFFmpeg
  rw [if_pos happ, hvid, hok]
  simp only [Bool.true_eq_false, not_true_eq_false, if_false, if_true]
  rw [fsStat_fsInsert_ne st.fs env.compressOutSize (fun h => compressOutPath_ne _ h.symm),
    hdisk, fsStat_fsInsert_self]
  dsimp only
  rw [if_pos hsize]

theorem compressStage_discard (cfg : Config) (env : PipelineEnv) (st : PipeState)
    (happ : st.ext = ".mp4".toList ∧ cfg.enableCompression = true)
    (hvid : env.ffprobeHasVideo = true)
    (hok : env.ffmpegCompressOk = true)
    (hdisk : fsStat st.fs st.uploadPath = some st.currentSize)
    (hsize : ¬ (env.compressOutSize < st.currentSize ∧ 0 < env.compressOutSize)) :
    compressStage cfg env st =
      { st with fs := fsRemove (fsInsert st.fs (compressOutPath st.uploadPath)
          env.compressOutSize) (compressOutPath st.uploadPath) } := by
  unfold compressStage CompressWithFFmpeg
  rw [if_pos happ, hvid, hok]
  simp only [Bool.true_eq_false, not_true_eq_false, if_false, if_true]
  rw [fsStat_fsInsert_ne st.fs env.compressOutSize (fun h => compressOutPath_ne _ h.symm),
    hdisk, fsStat_fsInsert_self]
  dsimp only
  rw [if_neg hsize]

theorem remuxStage_skip (cfg : Config) (env : PipelineEnv) (filename : Str) (st : PipeState)
    (h : ¬ (st.ext = ".ts".toList ∧ cfg.enableTsToMp4 = true)) :
    remuxStage cfg env filename st = st := by
  unfold remuxStage
  rw [if_neg h]

theorem remuxStage_fail (cfg : Config) (env : PipelineEnv) (filename : Str) (st : PipeState)
    (ha1 : env.remuxAttempt1Ok = false) (ha2 : env.remuxAttempt2Ok = false) :
    remuxStage cfg env filename st = st := by
  unfold remuxStage ConvertTSToMP4
  rw [ha1, ha2]
  simp only [Bool.false_eq_true, if_false]
  split <;> rfl

theorem remuxStage_success (cfg : Config) (env : PipelineEnv) (filename : Str)
    (st : PipeState)
    (happ : st.ext = ".ts".toList ∧ cfg.enableTsToMp4 = true)
    (hok : env.remuxAttempt1Ok = true ∨ env.remuxAttempt2Ok = true) :
    remuxStage cfg env filename st =
      { fs := fsRemove (fsInsert st.fs (remuxOutPath st.uploadPath) env.remuxOutSize)
          st.uploadPath
        uploadPath := remuxOutPath st.uploadPath
        uploadFilename := trimSuffix filename st.ext ++ ".mp4".toList
        currentSize := env.remuxOutSize
        ext := ".mp4".toList } := by
  unfold remuxStage ConvertTSToMP4
  rw [if_pos happ]
  rcases hok with h1 | h2
  · rw [h1]
    simp only [if_true]
    rw [fsStat_fsInsert_self]
  · rw [h2]
    cases ha1 : env.remuxAttempt1Ok
    · simp only [Bool.false_eq_true, if_false, if_true]
      rw [fsStat_fsInsert_self]
    · simp only [if_true]
      rw [fsStat_fsInsert_self]

/-!
## Claim C3 — compression never grows the artifact
-/

/-- C3: for any task state, the compression stage never increases
`currentSize`; the compressed output replaces the payload exactly when
the stage applies (`.mp4` extension and compression enabled), ffprobe
saw a video stream, ffmpeg succeeded, and the output is strictly smaller
than the on-disk original and strictly larger than zero; on replacement
the new size is the compressed size, and otherwise path and size are
retained unchanged and the compressed output does not remain on disk. -/
theorem C3_compression_never_grows (cfg : Config) (env : PipelineEnv) (st : PipeState)
    (hdisk : fsStat st.fs st.uploadPath = some st.currentSize)
    (hfresh : fsStat st.fs (compressOutPath st.uploadPath) = none)
    (hempty : fsStat st.fs [] = none) :
    (compressStage cfg env st).currentSize ≤ st.currentSize ∧
      ((compressStage cfg env st).uploadPath = compressOutPath st.uploadPath ↔
        st.ext = ".mp4".toList ∧ cfg.enableCompression = true ∧
          env.ffprobeHasVideo = true ∧ env.ffmpegCompressOk = true ∧
          env.compressOutSize < st.currentSize ∧ 0 < env.compressOutSize) ∧
      ((compressStage cfg env st).uploadPath = compressOutPath st.uploadPath →
        (compressStage cfg env st).currentSize = env.compressOutSize) ∧
      ((compressStage cfg env st).uploadPath = st.uploadPath →
        (compressStage cfg env st).currentSize = st.currentSize ∧
          fsStat (compressStage cfg env st).fs (compressOutPath st.uploadPath) = none) := by
  by_cases happ : st.ext = ".mp4".toList ∧ cfg.enableCompression = true
  · cases hvid : env.ffprobeHasVideo
    · rw [compressStage_noVideo cfg env st happ hvid hempty]
      refine ⟨Nat.le_refl _, ?_, ?_, ?_⟩
      · constructor
        · intro h; exact absurd h.symm (compressOutPath_ne _)
        · rintro ⟨-, -, h3, -⟩; exact absurd h3 (by simp)
      · intro h; exact absurd h.symm (compressOutPath_ne _)
      · intro _
        refine ⟨rfl, ?_⟩
        rw [fsStat_fsRemove_ne st.fs (compressOutPath_ne_nil st.uploadPath)]
        exact hfresh
    · cases hok : env.ffmpegCompressOk
      · rw [compressStage_ffmpegFail cfg env st happ hvid hok]
        refine ⟨Nat.le_refl _, ?_, ?_, ?_⟩
        · constructor
          · intro h; exact absurd h.symm (compressOutPath_ne _)
          · rintro ⟨-, -, -, h4, -⟩; exact absurd h4 (by simp)
        · intro h; exact absurd h.symm (compressOutPath_ne _)
        · intro _; exact ⟨rfl, hfresh⟩
      · by_cases hsize : env.compressOutSize < st.currentSize ∧ 0 < env.compressOutSize
        · rw [compressStage_replace cfg env st happ hvid hok hdisk hsize]
          refine ⟨Nat.le_of_lt hsize.1, ?_, ?_, ?_⟩
          · exact iff_of_true rfl ⟨happ.1, happ.2, rfl, rfl, hsize.1, hsize.2⟩
          · intro _; rfl
          · intro h; exact absurd h (compressOutPath_ne _)
        · rw [compressStage_discard cfg env st happ hvid hok hdisk hsize]
          refine ⟨Nat.le_refl _, ?_, ?_, ?_⟩
          · constructor
            · intro h; exact absurd h.symm (compressOutPath_ne _)
            · rintro ⟨-, -, -, -, h5, h6⟩; exact absurd ⟨h5, h6⟩ hsize
          · intro h; exact absurd h.symm (compressOutPath_ne _)
          · intro _
            exact ⟨rfl, fsStat_fsRemove_self _ _⟩
  · rw [compressStage_skip cfg env st happ]
    refine ⟨Nat.le_refl _, ?_, ?_, ?_⟩
    · constructor
      · intro h; exact absurd h.symm (compressOutPath_ne _)
      · rintro ⟨h1, h2, -⟩; exact absurd ⟨h1, h2⟩ happ
    · intro h; exact absurd h.symm (compressOutPath_ne _)
    · intro _; exact ⟨rfl, hfresh⟩

/-- C3 witness: a concrete compression run in which the smaller output
replaces the payload. -/
theorem C3_compression_never_grows_witness :
    (compressStage cfgW envW
        ⟨[("/d/.processing_v/a.mp4.u.tmp".toList, 100)],
          "/d/.processing_v/a.mp4.u.tmp".toList, "a.mp4".toList, 100,
          ".mp4".toList⟩).currentSize ≤ 100 :=
  (C3_compression_never_grows cfgW envW _ (by decide) (by decide) (by decide)).1

/-!
## Singleton-payload invariant through the transform stages

A task entering the pipeline owns exactly one staged file; each stage
either keeps it or atomically replaces it, and the current path always
stays inside a processing directory.
-/

/-- The pipeline's staging area holds exactly the task's current
payload, and the payload lies inside a processing directory. -/
def SingletonInv (st : PipeState) : Prop :=
  st.fs = [(st.uploadPath, st.currentSize)] ∧
    strContains st.uploadPath ".processing".toList = true

theorem fsRemove_singleton_ne (p q : Str) (n : Nat) (h : p ≠ q) :
    fsRemove [(p, n)] q = [(p, n)] := by
  unfold fsRemove
  rw [if_neg h]
  rfl

theorem fsInsert_singleton_ne (p out : Str) (n sz : Nat) (h : out ≠ p) :
    fsInsert [(p, n)] out sz = [(out, sz), (p, n)] := by
  unfold fsInsert
  rw [fsRemove_singleton_ne p out n fun hp => h hp.symm]

theorem fsRemove_fsInsert_singleton (p out : Str) (n sz : Nat) (h : out ≠ p) :
    fsRemove (fsInsert [(p, n)] out sz) p = [(out, sz)] := by
  rw [fsInsert_singleton_ne p out n sz h]
  unfold fsRemove
  rw [if_neg h, fsRemove_singleton p n]

theorem fsRemove_fsInsert_cancel (p out : Str) (n sz : Nat) (h : out ≠ p) :
    fsRemove (fsInsert [(p, n)] out sz) out = [(p, n)] := by
  rw [fsInsert_singleton_ne p out n sz h]
  unfold fsRemove
  rw [if_pos rfl, fsRemove_singleton_ne p out n fun hp => h hp.symm]

theorem strContains_compressOutPath {p : Str} (h : strContains p ".processing".toList = true) :
    strContains (compressOutPath p) ".processing".toList = true :=
  strContains_append_left _ h

theorem compressStage_singleton_inv (cfg : Config) (env : PipelineEnv) (st : PipeState)
    (h : SingletonInv st) : SingletonInv (compressStage cfg env st) := by
  obtain ⟨hfs, hproc⟩ := h
  have hne : st.uploadPath ≠ [] := ne_nil_of_strContains (by decide) hproc
  have hdisk : fsStat st.fs st.uploadPath = some st.currentSize := by
    rw [hfs]; simp [fsStat]
  have hempty : fsStat st.fs [] = none := by
    rw [hfs]; simp [fsStat, hne]
  by_cases happ : st.ext = ".mp4".toList ∧ cfg.enableCompression = true
  · cases hvid : env.ffprobeHasVideo
    · rw [compressStage_noVideo cfg env st happ hvid hempty]
      refine ⟨?_, hproc⟩
      rw [hfs]
      simp [fsRemove, hne]
    · cases hok : env.ffmpegCompressOk
      · rw [compressStage_ffmpegFail cfg env st happ hvid hok]
        exact ⟨hfs, hproc⟩
      · by_cases hsize : env.compressOutSize < st.currentSize ∧ 0 < env.compressOutSize
        · rw [compressStage_replace cfg env st happ hvid hok hdisk hsize]
          refine ⟨?_, strContains_compressOutPath hproc⟩
          rw [hfs]
          exact fsRemove_fsInsert_singleton _ _ _ _ (compressOutPath_ne _)
        · rw [compressStage_discard cfg env st happ hvid hok hdisk hsize]
          refine ⟨?_, hproc⟩
          rw [hfs]
          exact fsRemove_fsInsert_cancel _ _ _ _ (compressOutPath_ne _)
  · rw [compressStage_skip cfg env st happ]
    exact ⟨hfs, hproc⟩

theorem remuxStage_singleton_inv (cfg : Config) (env : PipelineEnv) (filename : Str)
    (st : PipeState) (h : SingletonInv st)
    (hprocOut : strContains (remuxOutPath st.uploadPath) ".processing".toList = true)
    (hneq : remuxOutPath st.uploadPath ≠ st.uploadPath) :
    SingletonInv (remuxStage cfg env filename st) := by
  obtain ⟨hfs, hproc⟩ := h
  by_cases happ : st.ext = ".ts".toList ∧ cfg.enableTsToMp4 = true
  · cases ha1 : env.remuxAttempt1Ok
    · cases ha2 : env.remuxAttempt2Ok
      · rw [remuxStage_fail cfg env filename st ha1 ha2]
        exact ⟨hfs, hproc⟩
      · rw [remuxStage_success cfg env filename st happ (Or.inr ha2)]
        refine ⟨?_, hprocOut⟩
        rw [hfs]
        exact fsRemove_fsInsert_singleton _ _ _ _ hneq
    · rw [remuxStage_success cfg env filename st happ (Or.inl ha1)]
      refine ⟨?_, hprocOut⟩
      rw [hfs]
      exact fsRemove_fsInsert_singleton _ _ _ _ hneq
  · rw [remuxStage_skip cfg env filename st happ]
    exact ⟨hfs, hproc⟩

theorem deferCleanup_singleton (p : Str) (n : Nat)
    (hproc : strContains p ".processing".toList = true) :
    deferCleanup [(p, n)] p = [] := by
  have hne : p ≠ [] := ne_nil_of_strContains (by decide) hproc
  unfold deferCleanup
  rw [if_pos ⟨hne, hproc, by simp [fsStat]⟩]
  exact fsRemove_singleton p n

/-!
## Claim C1 — upload failure is terminal
-/

/-- C1: when remote upload is enabled (with an initialized client and a
configured bucket) and the `PutObject` call fails, the task ends in the
terminal failed state: the staged file is deleted (the staging area ends
empty, so no file was finalized anywhere), no event is published, the
failure counter is incremented and the success/media counters are not.
The path hypotheses record that the staging path handed to `processFile`
(and its remux output) lie inside a processing directory, as every call
site guarantees. -/
theorem C1_upload_failure_terminal (cfg : Config) (env : PipelineEnv)
    (path filename targetFinalPath : Str) (isLocal : Bool) (initialSize : Nat)
    (hpanic : env.panicInBody = false)
    (hs3 : cfg.enableS3Upload = true)
    (hinit : env.s3ClientInit = true)
    (hbucket : cfg.s3Bucket ≠ [])
    (hput : env.s3PutOk = false)
    (hproc : strContains path ".processing".toList = true)
    (hprocOut : strContains (remuxOutPath path) ".processing".toList = true)
    (hneq : remuxOutPath path ≠ path) :
    (processFile cfg env path filename targetFinalPath isLocal initialSize
        [(path, initialSize)]).fs = [] ∧
      (processFile cfg env path filename targetFinalPath isLocal initialSize
        [(path, initialSize)]).events = [] ∧
      (processFile cfg env path filename targetFinalPath isLocal initialSize
        [(path, initialSize)]).completed = false ∧
      (processFile cfg env path filename targetFinalPath isLocal initialSize
        [(path, initialSize)]).failedInc = 1 ∧
      (processFile cfg env path filename targetFinalPath isLocal initialSize
        [(path, initialSize)]).successInc = 0 ∧
      (processFile cfg env path filename targetFinalPath isLocal initialSize
        [(path, initialSize)]).mediaInc = 0 := by
  have h0 : SingletonInv ⟨[(path, initialSize)], path, filename, initialSize,
      strToLower (extOf filename)⟩ := ⟨rfl, hproc⟩
  have h1 := remuxStage_singleton_inv cfg env filename _ h0 hprocOut hneq
  have h2 := compressStage_singleton_inv cfg env _ h1
  obtain ⟨hfs2, hproc2⟩ := h2
  have hupload : UploadFileToS3 cfg env
      (compressStage cfg env (remuxStage cfg env filename
        ⟨[(path, initialSize)], path, filename, initialSize,
          strToLower (extOf filename)⟩)).fs
      (compressStage cfg env (remuxStage cfg env filename
        ⟨[(path, initialSize)], path, filename, initialSize,
          strToLower (extOf filename)⟩)).uploadPath
      (compressStage cfg env (remuxStage cfg env filename
        ⟨[(path, initialSize)], path, filename, initialSize,
          strToLower (extOf filename)⟩)).uploadFilename =
      (false, [((compressStage cfg env (remuxStage cfg env filename
          ⟨[(path, initialSize)], path, filename, initialSize,
            strToLower (extOf filename)⟩)).uploadPath,
        (compressStage cfg env (remuxStage cfg env filename
          ⟨[(path, initialSize)], path, filename, initialSize,
            strToLower (extOf filename)⟩)).uploadFilename,
        contentTypeFor (compressStage cfg env (remuxStage cfg env filename
          ⟨[(path, initialSize)], path, filename, initialSize,
            strToLower (extOf filename)⟩)).uploadFilename)]) := by
    unfold UploadFileToS3
    rw [if_neg (by rw [hinit]; simp [hbucket])]
    rw [hfs2]
    simp [fsStat, hput]
  unfold processFile
  dsimp only
  rw [hpanic]
  simp only [Bool.false_eq_true, if_false]
  rw [hs3]
  simp only [if_true]
  rw [hupload]
  dsimp only
  refine ⟨?_, rfl, rfl, rfl, rfl, rfl⟩
  rw [hfs2]
  exact deferCleanup_singleton _ _ hproc2

/-- A collaborator environment in which the S3 put fails. -/
def envPutFailW : PipelineEnv := { envW with s3PutOk := false }

/-- C1 witness: a concrete failing upload leaves an empty staging area,
no event, and a failure count of one. -/
theorem C1_upload_failure_terminal_witness :
    (processFile cfgW envPutFailW "/d/.processing_v/a.ts.u.tmp".toList "a.ts".toList
        "/d/v/a.ts".toList true 7
        [("/d/.processing_v/a.ts.u.tmp".toList, 7)]).fs = [] ∧
      (processFile cfgW envPutFailW "/d/.processing_v/a.ts.u.tmp".toList "a.ts".toList
        "/d/v/a.ts".toList true 7
        [("/d/.processing_v/a.ts.u.tmp".toList, 7)]).events = [] ∧
      (processFile cfgW envPutFailW "/d/.processing_v/a.ts.u.tmp".toList "a.ts".toList
        "/d/v/a.ts".toList true 7
        [("/d/.processing_v/a.ts.u.tmp".toList, 7)]).completed = false ∧
      (processFile cfgW envPutFailW "/d/.processing_v/a.ts.u.tmp".toList "a.ts".toList
        "/d/v/a.ts".toList true 7
        [("/d/.processing_v/a.ts.u.tmp".toList, 7)]).failedInc = 1 ∧
      (processFile cfgW envPutFailW "/d/.processing_v/a.ts.u.tmp".toList "a.ts".toList
        "/d/v/a.ts".toList true 7
        [("/d/.processing_v/a.ts.u.tmp".toList, 7)]).successInc = 0 ∧
      (processFile cfgW envPutFailW "/d/.processing_v/a.ts.u.tmp".toList "a.ts".toList
        "/d/v/a.ts".toList true 7
        [("/d/.processing_v/a.ts.u.tmp".toList, 7)]).mediaInc = 0 :=
  C1_upload_failure_terminal cfgW envPutFailW _ _ _ true 7 (by decide) (by decide)
    (by decide) (by decide) (by decide) (by decide) (by decide) (by decide)

/-!
## Claim C4 — remux failure never drops the task
-/

/-- C4: when the staged payload has a `.ts` extension, remux is enabled,
and both remux attempts fail, the pipeline is not aborted: the upload
stage receives exactly the original path and filename, the payload size
is unchanged, and the task runs to completion with no failure count. -/
theorem C4_remux_failure_continues (cfg : Config) (env : PipelineEnv)
    (path filename targetFinalPath : Str) (isLocal : Bool) (initialSize : Nat)
    (hpanic : env.panicInBody = false)
    (hext : strToLower (extOf filename) = ".ts".toList)
    (ha1 : env.remuxAttempt1Ok = false)
    (ha2 : env.remuxAttempt2Ok = false)
    (hs3 : cfg.enableS3Upload = true)
    (hinit : env.s3ClientInit = true)
    (hbucket : cfg.s3Bucket ≠ [])
    (hput : env.s3PutOk = true) :
    (processFile cfg env path filename targetFinalPath isLocal initialSize
        [(path, initialSize)]).s3Puts =
      [(path, filename, contentTypeFor filename)] ∧
      (processFile cfg env path filename targetFinalPath isLocal initialSize
        [(path, initialSize)]).uploadFilename = filename ∧
      (processFile cfg env path filename targetFinalPath isLocal initialSize
        [(path, initialSize)]).currentSize = initialSize ∧
      (processFile cfg env path filename targetFinalPath isLocal initialSize
        [(path, initialSize)]).completed = true ∧
      (processFile cfg env path filename targetFinalPath isLocal initialSize
        [(path, initialSize)]).failedInc = 0 := by
  have hskip : ¬ (strToLower (extOf filename) = ".mp4".toList ∧
      cfg.enableCompression = true) := by
    intro hc
    have : (".ts".toList : Str) = ".mp4".toList := hext.symm.trans hc.1
    exact absurd this (by decide)
  have hupload : UploadFileToS3 cfg env [(path, initialSize)] path filename =
      (true, [(path, filename, contentTypeFor filename)]) := by
    unfold UploadFileToS3
    rw [if_neg (by rw [hinit]; simp [hbucket])]
    simp [fsStat, hput]
  unfold processFile
  dsimp only
  rw [hpanic]
  simp only [Bool.false_eq_true, if_false]
  rw [remuxStage_fail cfg env filename _ ha1 ha2,
    compressStage_skip cfg env _ hskip]
  rw [hs3]
  simp only [if_true]
  rw [hupload]
  dsimp only
  exact ⟨rfl, rfl, rfl, rfl, rfl⟩

/-- A collaborator environment in which both remux attempts fail. -/
def envRemuxFailW : PipelineEnv :=
  { envW with remuxAttempt1Ok := false, remuxAttempt2Ok := false }

/-- C4 witness: a concrete double remux failure still uploads the
original `.ts` payload unchanged. -/
theorem C4_remux_failure_continues_witness :
    (processFile cfgW envRemuxFailW "/d/.processing_v/a.ts.u.tmp".toList
        "a.ts".toList "/d/v/a.ts".toList true 7
        [("/d/.processing_v/a.ts.u.tmp".toList, 7)]).s3Puts =
      [("/d/.processing_v/a.ts.u.tmp".toList, "a.ts".toList,
        contentTypeFor "a.ts".toList)] ∧
      (processFile cfgW envRemuxFailW "/d/.processing_v/a.ts.u.tmp".toList
        "a.ts".toList "/d/v/a.ts".toList true 7
        [("/d/.processing_v/a.ts.u.tmp".toList, 7)]).uploadFilename = "a.ts".toList ∧
      (processFile cfgW envRemuxFailW "/d/.processing_v/a.ts.u.tmp".toList
        "a.ts".toList "/d/v/a.ts".toList true 7
        [("/d/.processing_v/a.ts.u.tmp".toList, 7)]).currentSize = 7 ∧
      (processFile cfgW envRemuxFailW "/d/.processing_v/a.ts.u.tmp".toList
        "a.ts".toList "/d/v/a.ts".toList true 7
        [("/d/.processing_v/a.ts.u.tmp".toList, 7)]).completed = true ∧
      (processFile cfgW envRemuxFailW "/d/.processing_v/a.ts.u.tmp".toList
        "a.ts".toList "/d/v/a.ts".toList true 7
        [("/d/.processing_v/a.ts.u.tmp".toList, 7)]).failedInc = 0 :=
  C4_remux_failure_continues cfgW envRemuxFailW _ _ _ true 7 (by decide) (by decide)
    (by decide) (by decide) (by decide) (by decide) (by decide) (by decide)

/-!
## Claim C9 — uninitialized S3 client silently skips the upload
-/

theorem UploadFileToS3_skip (cfg : Config) (env : PipelineEnv) (fs : FS)
    (p f : Str) (h : env.s3ClientInit = false) :
    UploadFileToS3 cfg env fs p f = (true, []) := by
  unfold UploadFileToS3
  rw [if_pos (Or.inl (by rw [h]; simp))]

/-- C9: when remote upload is enabled by configuration but the S3 client
was never initialized (bucket or endpoint unconfigured, or the AWS
config load failed), `UploadFileToS3` returns success without any
`PutObject` call, so the task runs to completion, is counted as a
successful upload, and still publishes its event. -/
theorem C9_uninitialized_s3_silent_success (cfg : Config) (env : PipelineEnv)
    (path filename targetFinalPath : Str) (isLocal : Bool) (initialSize : Nat) (fs0 : FS)
    (hpanic : env.panicInBody = false)
    (hs3 : cfg.enableS3Upload = true)
    (hinit : env.s3ClientInit = s3ClientInitialized cfg env.awsLoadOk)
    (hmis : cfg.s3Bucket = [] ∨ cfg.s3Endpoint = [] ∨ env.awsLoadOk = false)
    (hmq : cfg.enableRabbitMQ = true)
    (hrc : env.rabbitConfigured = true) :
    (processFile cfg env path filename targetFinalPath isLocal initialSize fs0).s3Puts
        = [] ∧
      (processFile cfg env path filename targetFinalPath isLocal initialSize
        fs0).successInc = 1 ∧
      (processFile cfg env path filename targetFinalPath isLocal initialSize
        fs0).failedInc = 0 ∧
      (processFile cfg env path filename targetFinalPath isLocal initialSize
        fs0).completed = true ∧
      (processFile cfg env path filename targetFinalPath isLocal initialSize
        fs0).events.length = 1 ∧
      (∀ (fs2 : FS) (p f : Str), UploadFileToS3 cfg env fs2 p f = (true, [])) := by
  have hfalse : env.s3ClientInit = false := by
    rw [hinit]
    unfold s3ClientInitialized
    rcases hmis with h | h | h <;> simp [h]
  unfold processFile
  dsimp only
  rw [hpanic]
  simp only [Bool.false_eq_true, if_false]
  rw [hs3]
  simp only [if_true]
  rw [UploadFileToS3_skip cfg env _ _ _ hfalse]
  dsimp only
  refine ⟨rfl, rfl, rfl, rfl, ?_, fun fs2 p f => UploadFileToS3_skip cfg env fs2 p f hfalse⟩
  unfold finishPipeline
  dsimp only
  rw [if_pos ⟨hmq, hrc⟩]
  rfl

/-- A collaborator environment in which the AWS config load failed and
the S3 client stayed nil. -/
def envNoS3W : PipelineEnv := { envW with awsLoadOk := false, s3ClientInit := false }

/-- C9 witness: a concrete run with an uninitialized client makes no put,
counts a success, and publishes one event. -/
theorem C9_uninitialized_s3_silent_success_witness :
    (processFile cfgW envNoS3W "/d/.processing_v/a.ts.u.tmp".toList "a.ts".toList
        "/d/v/a.ts".toList true 7
        [("/d/.processing_v/a.ts.u.tmp".toList, 7)]).s3Puts = [] ∧
      (processFile cfgW envNoS3W "/d/.processing_v/a.ts.u.tmp".toList "a.ts".toList
        "/d/v/a.ts".toList true 7
        [("/d/.processing_v/a.ts.u.tmp".toList, 7)]).successInc = 1 ∧
      (processFile cfgW envNoS3W "/d/.processing_v/a.ts.u.tmp".toList "a.ts".toList
        "/d/v/a.ts".toList true 7
        [("/d/.processing_v/a.ts.u.tmp".toList, 7)]).failedInc = 0 ∧
      (processFile cfgW envNoS3W "/d/.processing_v/a.ts.u.tmp".toList "a.ts".toList
        "/d/v/a.ts".toList true 7
        [("/d/.processing_v/a.ts.u.tmp".toList, 7)]).completed = true ∧
      (processFile cfgW envNoS3W "/d/.processing_v/a.ts.u.tmp".toList "a.ts".toList
        "/d/v/a.ts".toList true 7
        [("/d/.processing_v/a.ts.u.tmp".toList, 7)]).events.length = 1 ∧
      (∀ (fs2 : FS) (p f : Str), UploadFileToS3 cfgW envNoS3W fs2 p f = (true, [])) :=
  C9_uninitialized_s3_silent_success cfgW envNoS3W _ _ _ true 7 _ (by decide) (by decide)
    (by decide) (by decide) (by decide) (by decide)

/-!
## Claims C5 and C10 — the signature check
-/

theorem handlerDefer_singleton (p : Str) (n : Nat) (h : p ≠ []) :
    handlerDefer [(p, n)] p = [] := by
  unfold handlerDefer
  rw [if_pos ⟨h, by simp [fsStat]⟩]
  exact fsRemove_singleton p n

/-- C5: with signature enforcement enabled, a request whose `sign` field
differs from the expected token for the given filename, timestamp and
secret is answered `400` with body code 400 and message
`Signature error`; no background task is spawned, and the
already-streamed temporary file is removed, leaving zero files
staged. -/
theorem C5_signature_mismatch_rejected (cfg : Config) (henv : HandlerEnv)
    (fields : FormFields) (fhFilename : Str) (n : Nat) (tempPath requestID : Str)
    (now : Int) (md5 : Str → List Nat)
    (hsecret : cfg.enableSecret = true)
    (htp : tempPath ≠ [])
    (hlen : (computeFinalFilename fields fhFilename now).length ≤ 255)
    (hsig : fields.sign ≠ GenerateSign md5
        (baseForSign fields.providedFilename (computeFinalFilename fields fhFilename now))
        fields.timestamp cfg.secretKey) :
    (UploadHandlerAfterStream cfg henv fields fhFilename n tempPath requestID now md5
        [(tempPath, n)]).status = 400 ∧
      (UploadHandlerAfterStream cfg henv fields fhFilename n tempPath requestID now md5
        [(tempPath, n)]).code = 400 ∧
      (UploadHandlerAfterStream cfg henv fields fhFilename n tempPath requestID now md5
        [(tempPath, n)]).message = "Signature error".toList ∧
      (UploadHandlerAfterStream cfg henv fields fhFilename n tempPath requestID now md5
        [(tempPath, n)]).fs = [] ∧
      (UploadHandlerAfterStream cfg henv fields fhFilename n tempPath requestID now md5
        [(tempPath, n)]).spawned = none := by
  unfold UploadHandlerAfterStream
  dsimp only
  rw [if_neg (by omega), if_pos ⟨hsecret, hsig⟩]
  exact ⟨rfl, rfl, rfl, handlerDefer_singleton tempPath n htp, rfl⟩

/-- A fixed stand-in for the `crypto/md5` collaborator, used by
witnesses. -/
def md5W : Str → List Nat := fun _ => List.replicate 16 0

/-- The form fields of the signature witnesses: an override filename, a
timestamp, and a wrong signature. -/
def fieldsSigW : FormFields :=
  ⟨"a.mp4".toList, "1".toList, "x".toList, [], [], [], [], [], [], []⟩

/-- C5 witness: a concrete mismatching signature is rejected with 400
and the streamed file removed. -/
theorem C5_signature_mismatch_rejected_witness :
    (UploadHandlerAfterStream cfgW ⟨"/tmp".toList, true, true⟩ fieldsSigW
        "orig.mp4".toList 7 "/data/upload/.processing/upload-stream-1".toList
        "u1".toList 0 md5W
        [("/data/upload/.processing/upload-stream-1".toList, 7)]).status = 400 ∧
      (UploadHandlerAfterStream cfgW ⟨"/tmp".toList, true, true⟩ fieldsSigW
        "orig.mp4".toList 7 "/data/upload/.processing/upload-stream-1".toList
        "u1".toList 0 md5W
        [("/data/upload/.processing/upload-stream-1".toList, 7)]).code = 400 ∧
      (UploadHandlerAfterStream cfgW ⟨"/tmp".toList, true, true⟩ fieldsSigW
        "orig.mp4".toList 7 "/data/upload/.processing/upload-stream-1".toList
        "u1".toList 0 md5W
        [("/data/upload/.processing/upload-stream-1".toList, 7)]).message =
        "Signature error".toList ∧
      (UploadHandlerAfterStream cfgW ⟨"/tmp".toList, true, true⟩ fieldsSigW
        "orig.mp4".toList 7 "/data/upload/.processing/upload-stream-1".toList
        "u1".toList 0 md5W
        [("/data/upload/.processing/upload-stream-1".toList, 7)]).fs = [] ∧
      (UploadHandlerAfterStream cfgW ⟨"/tmp".toList, true, true⟩ fieldsSigW
        "orig.mp4".toList 7 "/data/upload/.processing/upload-stream-1".toList
        "u1".toList 0 md5W
        [("/data/upload/.processing/upload-stream-1".toList, 7)]).spawned = none :=
  C5_signature_mismatch_rejected cfgW ⟨"/tmp".toList, true, true⟩ fieldsSigW
    "orig.mp4".toList 7 _ "u1".toList 0 md5W (by decide) (by decide) (by decide)
    (by decide)

/-- C10: with signature enforcement enabled (and a within-limit
filename), the handler rejects with `400 Signature error` exactly when
the `sign` field, compared by string equality, differs from the base64
encoding of the lowercase-hex MD5 digest of base ++ timestamp ++ secret,
where the base string is the client-supplied override filename whenever
it is non-blank and only otherwise the computed final filename. -/
theorem C10_signature_base_and_formula (cfg : Config) (henv : HandlerEnv)
    (fields : FormFields) (fhFilename : Str) (n : Nat) (tempPath requestID : Str)
    (now : Int) (md5 : Str → List Nat) (fs0 : FS)
    (hsecret : cfg.enableSecret = true)
    (hlen : (computeFinalFilename fields fhFilename now).length ≤ 255) :
    (UploadHandlerAfterStream cfg henv fields fhFilename n tempPath requestID now md5
          fs0).status = 400 ∧
      (UploadHandlerAfterStream cfg henv fields fhFilename n tempPath requestID now md5
          fs0).message = "Signature error".toList ↔
      fields.sign ≠ base64Encode ((hexLower (md5
        ((if trimSpace fields.providedFilename ≠ [] then fields.providedFilename
          else computeFinalFilename fields fhFilename now) ++
          fields.timestamp ++ cfg.secretKey))).map Char.toNat) := by
  have hbase : (if trimSpace fields.providedFilename ≠ [] then fields.providedFilename
      else computeFinalFilename fields fhFilename now) =
      baseForSign fields.providedFilename (computeFinalFilename fields fhFilename now) := by
    unfold baseForSign
    by_cases h : trimSpace fields.providedFilename = []
    · rw [if_neg (by simp [h]), if_pos h]
    · rw [if_pos h, if_neg h]
  rw [hbase]
  unfold UploadHandlerAfterStream
  dsimp only
  rw [if_neg (by omega)]
  by_cases hsig : fields.sign = GenerateSign md5
      (baseForSign fields.providedFilename (computeFinalFilename fields fhFilename now))
      fields.timestamp cfg.secretKey
  · rw [if_neg (by intro hc; exact hc.2 hsig)]
    constructor
    · intro hcontra
      repeat' split at hcontra
      all_goals obtain ⟨h1, -⟩ := hcontra
      all_goals dsimp only at h1
      all_goals exact absurd h1 (by decide)
    · intro hne
      exact absurd hsig hne
  · rw [if_pos ⟨hsecret, hsig⟩]
    exact iff_of_true ⟨rfl, rfl⟩ hsig

/-- C10 witness: the characterization evaluated at a concrete request
with a wrong signature. -/
theorem C10_signature_base_and_formula_witness :
    (UploadHandlerAfterStream cfgW ⟨"/tmp".toList, true, true⟩ fieldsSigW
          "orig.mp4".toList 7 "/data/upload/.processing/upload-stream-1".toList
          "u1".toList 0 md5W
          [("/data/upload/.processing/upload-stream-1".toList, 7)]).status = 400 ∧
      (UploadHandlerAfterStream cfgW ⟨"/tmp".toList, true, true⟩ fieldsSigW
          "orig.mp4".toList 7 "/data/upload/.processing/upload-stream-1".toList
          "u1".toList 0 md5W
          [("/data/upload/.processing/upload-stream-1".toList, 7)]).message =
        "Signature error".toList ↔
      fieldsSigW.sign ≠ base64Encode ((hexLower (md5W
        ((if trimSpace fieldsSigW.providedFilename ≠ [] then fieldsSigW.providedFilename
          else computeFinalFilename fieldsSigW "orig.mp4".toList 0) ++
          fieldsSigW.timestamp ++ cfgW.secretKey))).map Char.toNat) :=
  C10_signature_base_and_formula cfgW ⟨"/tmp".toList, true, true⟩ fieldsSigW
    "orig.mp4".toList 7 _ "u1".toList 0 md5W _ (by decide) (by decide)

/-!
## Claim C7 — the Event filename template
-/

/-- The Event-template request of the C7 counterexample:
`pattern=event` with empty device id, type and channel. -/
def fieldsC7cex : FormFields :=
  ⟨[], [], [], [], [], [], "1700000000".toList, "event".toList, [], []⟩

/-- C7 counterexample: an Event-template request selected by
`pattern=event` whose device id, type and channel are all empty is
accepted — a filename is returned although the empty device id does not
match `^[0-9]{8,20}$` (the builder validates each field only when it is
non-empty). -/
theorem C7_counterexample :
    eventSelected fieldsC7cex ∧
      (BuildStandardFilename fieldsC7cex "a.mp4".toList [] 0).isSome = true ∧
      matchImei (trimSpace fieldsC7cex.imei) = false := by
  refine ⟨by decide, by decide, by decide⟩

theorem empty_or_true {s : Str} {b : Bool} (h : ¬ (s ≠ [] ∧ b = false)) :
    s = [] ∨ b = true := by
  by_cases hs : s = []
  · exact Or.inl hs
  · cases hb : b
    · exact absurd ⟨hs, hb⟩ h
    · exact Or.inr rfl

/-- C7 (amended): for every request built with the Event template, a
filename is returned only when each of device id, type and channel is
either empty or matches its pattern (`^[0-9]{8,20}$`, I or F,
`^[0-9]{1,3}$`) — empty fields are not validated — and only when the
timestamp parses; an absent timestamp defaults to the current UTC time,
and a nonempty timestamp is accepted in exactly three encodings:
10-digit Unix seconds, valid 14-digit compact `YYYYMMDDHHMMSS`, or
RFC 3339. -/
theorem C7_amended :
    (∀ (fields : FormFields) (fhFilename fhContentType : Str) (now : Int),
        eventSelected fields →
        (BuildStandardFilename fields fhFilename fhContentType now).isSome = true →
        (trimSpace fields.imei = [] ∨ matchImei (trimSpace fields.imei) = true) ∧
          (trimSpace (strToUpper fields.typ) = [] ∨
            trimSpace (strToUpper fields.typ) = ['I'] ∨
            trimSpace (strToUpper fields.typ) = ['F']) ∧
          (trimSpace fields.channel = [] ∨
            matchChannel (trimSpace fields.channel) = true) ∧
          (parseDateTimeFlexible (trimSpace fields.datetime) now).isSome = true) ∧
      (∀ now : Int, parseDateTimeFlexible [] now = some now) ∧
      (∀ (v : Str) (now : Int), v ≠ [] →
        (parseDateTimeFlexible v now).isSome = true →
        isTenDigits v = true ∨
          (isFourteenDigits v = true ∧ (parseCompact v).isSome = true) ∨
          (parseRFC3339 v).isSome = true) := by
  refine ⟨?_, ?_, ?_⟩
  · intro fields fhFilename fhContentType now hsel hsome
    unfold BuildStandardFilename at hsome
    dsimp only at hsome
    rw [if_pos hsel] at hsome
    by_cases h1 : trimSpace fields.imei ≠ [] ∧ matchImei (trimSpace fields.imei) = false
    · rw [if_pos h1] at hsome; simp at hsome
    · rw [if_neg h1] at hsome
      by_cases h2 : trimSpace (strToUpper fields.typ) ≠ [] ∧
          trimSpace (strToUpper fields.typ) ≠ ['I'] ∧
          trimSpace (strToUpper fields.typ) ≠ ['F']
      · rw [if_pos h2] at hsome; simp at hsome
      · rw [if_neg h2] at hsome
        by_cases h3 : trimSpace fields.channel ≠ [] ∧
            matchChannel (trimSpace fields.channel) = false
        · rw [if_pos h3] at hsome; simp at hsome
        · rw [if_neg h3] at hsome
          refine ⟨empty_or_true h1, by tauto, empty_or_true h3, ?_⟩
          cases hp : parseDateTimeFlexible (trimSpace fields.datetime) now with
          | none => rw [hp] at hsome; simp at hsome
          | some t => rfl
  · intro now
    rfl
  · intro v now hne hsome
    unfold parseDateTimeFlexible at hsome
    rw [if_neg hne] at hsome
    by_cases h10 : isTenDigits v = true
    · exact Or.inl h10
    · rw [if_neg h10] at hsome
      by_cases h14 : isFourteenDigits v = true
      · rw [if_pos h14] at hsome
        cases hc : parseCompact v with
        | some t => exact Or.inr (Or.inl ⟨h14, rfl⟩)
        | none =>
          rw [hc] at hsome
          dsimp only at hsome
          exact Or.inr (Or.inr hsome)
      · rw [if_neg h14] at hsome
        dsimp only at hsome
        exact Or.inr (Or.inr hsome)

/-- The Event-template request of the C7 witness: valid device id, type
and channel, absent timestamp. -/
def wFieldsC7 : FormFields :=
  ⟨[], [], [], "864993060014264".toList, "I".toList, "1".toList, [], [], [], []⟩

/-- C7 witness: the amended characterization evaluated on a concrete
accepted Event request, on the absent-timestamp default, and on a
concrete 10-digit timestamp. -/
theorem C7_amended_witness :
    ((trimSpace wFieldsC7.imei = [] ∨ matchImei (trimSpace wFieldsC7.imei) = true) ∧
      (trimSpace (strToUpper wFieldsC7.typ) = [] ∨
        trimSpace (strToUpper wFieldsC7.typ) = ['I'] ∨
        trimSpace (strToUpper wFieldsC7.typ) = ['F']) ∧
      (trimSpace wFieldsC7.channel = [] ∨
        matchChannel (trimSpace wFieldsC7.channel) = true) ∧
      (parseDateTimeFlexible (trimSpace wFieldsC7.datetime) 0).isSome = true) ∧
      parseDateTimeFlexible [] 5 = some 5 ∧
      (isTenDigits "1700000000".toList = true ∨
        (isFourteenDigits "1700000000".toList = true ∧
          (parseCompact "1700000000".toList).isSome = true) ∨
        (parseRFC3339 "1700000000".toList).isSome = true) :=
  ⟨C7_amended.1 wFieldsC7 "a.ts".toList [] 0 (by decide) (by decide),
    C7_amended.2.1 5,
    C7_amended.2.2 "1700000000".toList 0 (by decide) (by decide)⟩

end DvrUpload
